import Mathlib

/-!
Verification of the llm-zoo model-registry library.

Shallow embedding of `src/ModelConfig.ts`, `src/ModelRegistry.ts` and
`src/utils.ts`. JavaScript numbers are modelled as rationals (`ℚ`); the
registry (`MODEL_CONFIGS`, a string-keyed object whose values are read in
insertion order by `Object.values`) is modelled as a `List ModelConfig` in
insertion order, and every engine function is parametrised by that list.
Fallible functions (the Cost Engine, which throws `Unknown model: ${key}`)
return `Except ModelError`. JavaScript's `Array.prototype.sort` is stable
(ES2019); a stable sort under a consistent comparator `c` produces the unique
stable ordering, which we compute with `List.insertionSort r` where
`r a b ↔ c a b ≤ 0`.

Renamings forced by Lean keywords: `exists` → `existsModel`, `from` →
`fromProvider`, `where` → `whereCaps`.
-/

namespace LlmZoo

/-- The `ReasoningEffort` enum from `ModelConfig.ts`. -/
inductive ReasoningEffort where
  | xhigh
  | high
  | medium
  | low
  | none
deriving DecidableEq, Repr

/-- The `ModelProvider` enum from `ModelConfig.ts`, in declaration order. -/
inductive ModelProvider where
  | anthropic
  | openai
  | google
  | deepseek
  | xai
  | moonshot
  | dashscope
  | copilot
  | others
deriving DecidableEq, Repr

/-- Embedding of `Object.values(ModelProvider)`: every enumerated provider, in order. -/
def allProviders : List ModelProvider :=
  [.anthropic, .openai, .google, .deepseek, .xai, .moonshot, .dashscope,
   .copilot, .others]

/-- The `ModelCapabilities` interface from `ModelConfig.ts` (all fields required
in the TypeScript interface, hence total here). -/
structure ModelCapabilities where
  supportsFunctionCalling : Bool
  supportsNativeMCPServer : Bool
  supportsNativeWebSearch : Bool
  supportsDynamicFilteringWebSearch : Bool
  supportsNativeCodeExecution : Bool
  supportsPromptCaching : Bool
  supportsAutoPromptCaching : Bool
  cacheDiscountFactor : ℚ
  supportsReasoning : Bool
  supportsInterleavedThinking : Bool
  supportsReasoningEffort : Bool
  reasoningEffort : ReasoningEffort
  supportsVision : Bool
  supportsNativePdf : Bool
  supportsNativeAudio : Bool
  supportsAssistantPrefill : Bool
  supportsPredictiveOutput : Bool
  supportsTokenCounting : Bool
  supportsSystemPrompt : Bool
  supportsIntermDevMsgs : Bool
deriving DecidableEq, Repr

/-- Source constant `DEFAULT_MODEL_CAPABILITIES` from `ModelConfig.ts`. -/
def DEFAULT_MODEL_CAPABILITIES : ModelCapabilities where
  supportsFunctionCalling := true
  supportsNativeMCPServer := false
  supportsNativeWebSearch := false
  supportsDynamicFilteringWebSearch := false
  supportsNativeCodeExecution := false
  supportsPromptCaching := false
  supportsAutoPromptCaching := false
  cacheDiscountFactor := 1.0
  supportsReasoning := false
  supportsInterleavedThinking := false
  reasoningEffort := ReasoningEffort.none
  supportsVision := true
  supportsNativePdf := false
  supportsAssistantPrefill := false
  supportsPredictiveOutput := false
  supportsTokenCounting := false
  supportsSystemPrompt := true
  supportsIntermDevMsgs := false
  supportsReasoningEffort := false
  supportsNativeAudio := false

/-- The `ModelConfig` interface from `ModelConfig.ts`. Optional TypeScript fields
become `Option`s defaulting to `none`. -/
structure ModelConfig where
  name : String
  fullName : String
  provider : ModelProvider
  maxOutputTokens : ℚ
  inputPrice : ℚ
  outputPrice : ℚ
  contextWindow : ℚ
  capabilities : ModelCapabilities
  openRouterOnly : Bool
  openrouterFullName : Option String := Option.none
  baseUrl : Option String := Option.none
  requiresResponsesAPI : Option Bool := Option.none
  deprecated : Option Bool := Option.none
deriving DecidableEq, Repr

/-- The registry: `Object.values(MODEL_CONFIGS)` in insertion order. -/
abbrev Registry := List ModelConfig

/-- The `keyof ModelCapabilities` type: a capability field name. -/
inductive CapField where
  | supportsFunctionCalling
  | supportsNativeMCPServer
  | supportsNativeWebSearch
  | supportsDynamicFilteringWebSearch
  | supportsNativeCodeExecution
  | supportsPromptCaching
  | supportsAutoPromptCaching
  | cacheDiscountFactor
  | supportsReasoning
  | supportsInterleavedThinking
  | supportsReasoningEffort
  | reasoningEffort
  | supportsVision
  | supportsNativePdf
  | supportsNativeAudio
  | supportsAssistantPrefill
  | supportsPredictiveOutput
  | supportsTokenCounting
  | supportsSystemPrompt
  | supportsIntermDevMsgs
deriving DecidableEq, Repr

/-- The value of a capability field: TypeScript's
`boolean | number | ReasoningEffort`. -/
inductive CapValue where
  | bool (b : Bool)
  | num (q : ℚ)
  | effort (e : ReasoningEffort)
deriving DecidableEq, Repr

/-- Dynamic field access `capabilities[key]` on a `ModelCapabilities` record. -/
def getCap (c : ModelCapabilities) : CapField → CapValue
  | .supportsFunctionCalling => .bool c.supportsFunctionCalling
  | .supportsNativeMCPServer => .bool c.supportsNativeMCPServer
  | .supportsNativeWebSearch => .bool c.supportsNativeWebSearch
  | .supportsDynamicFilteringWebSearch => .bool c.supportsDynamicFilteringWebSearch
  | .supportsNativeCodeExecution => .bool c.supportsNativeCodeExecution
  | .supportsPromptCaching => .bool c.supportsPromptCaching
  | .supportsAutoPromptCaching => .bool c.supportsAutoPromptCaching
  | .cacheDiscountFactor => .num c.cacheDiscountFactor
  | .supportsReasoning => .bool c.supportsReasoning
  | .supportsInterleavedThinking => .bool c.supportsInterleavedThinking
  | .supportsReasoningEffort => .bool c.supportsReasoningEffort
  | .reasoningEffort => .effort c.reasoningEffort
  | .supportsVision => .bool c.supportsVision
  | .supportsNativePdf => .bool c.supportsNativePdf
  | .supportsNativeAudio => .bool c.supportsNativeAudio
  | .supportsAssistantPrefill => .bool c.supportsAssistantPrefill
  | .supportsPredictiveOutput => .bool c.supportsPredictiveOutput
  | .supportsTokenCounting => .bool c.supportsTokenCounting
  | .supportsSystemPrompt => .bool c.supportsSystemPrompt
  | .supportsIntermDevMsgs => .bool c.supportsIntermDevMsgs

/-- Whether a capability field holds a boolean (`typeof value === 'boolean'`). -/
def isBoolField : CapField → Bool
  | .cacheDiscountFactor => false
  | .reasoningEffort => false
  | _ => true

/-- Direct projection of the boolean flag of a boolean capability field
(`false` on the two non-boolean fields, where it is never used). -/
def boolFlag (m : ModelConfig) (f : CapField) : Bool :=
  match getCap m.capabilities f with
  | .bool b => b
  | _ => false

/-- Token usage shape `{ input, output, cached? }` of the Cost Engine. -/
structure TokenUsage where
  input : ℚ
  output : ℚ
  cached : Option ℚ := Option.none
deriving DecidableEq, Repr

/-- The single Cost Engine failure: `throw new Error('Unknown model: ...')`. -/
inductive ModelError where
  | unknownModel (key : String)
deriving DecidableEq, Repr

-- ==========================================================================
-- Stable sort: JS `Array.prototype.sort` with a numeric-key comparator
-- ==========================================================================

/-- Comparator relation of a JS sort by ascending numeric key: `a` precedes
`b` when the comparator value `key a - key b` is `≤ 0`. -/
def keyLe {α : Type*} (key : α → ℚ) (a b : α) : Prop := key a ≤ key b

instance {α : Type*} (key : α → ℚ) : DecidableRel (keyLe key) :=
  fun a b => inferInstanceAs (Decidable (key a ≤ key b))

instance {α : Type*} (key : α → ℚ) : IsTotal α (keyLe key) :=
  ⟨fun a b => le_total (key a) (key b)⟩

instance {α : Type*} (key : α → ℚ) : IsTrans α (keyLe key) :=
  ⟨fun _ _ _ h h' => le_trans h h'⟩

/-- Stable sort by ascending key, the semantics of ES2019 `Array.sort` with a
consistent comparator. -/
def sortByKey {α : Type*} (key : α → ℚ) (l : List α) : List α :=
  l.insertionSort (keyLe key)

-- ==========================================================================
-- Query Engine (`utils.ts`)
-- ==========================================================================

/-- Source function `lookup(name)`: `MODEL_CONFIGS[name]`. Registry keys are the entries'
`name` fields (every table in `src/providers` keys each entry by its own
`name`), unique by the §3 invariant. -/
def lookup (reg : Registry) (name : String) : Option ModelConfig :=
  reg.find? (fun m => decide (m.name = name))

/-- Source function `resolve(fullName)`: first entry whose `fullName` matches. -/
def resolve (reg : Registry) (fullName : String) : Option ModelConfig :=
  reg.find? (fun m => decide (m.fullName = fullName))

/-- Source function `exists(name)`: key-membership test (`name in MODEL_CONFIGS`). -/
def existsModel (reg : Registry) (name : String) : Bool :=
  (lookup reg name).isSome

/-- Source function `from(provider)`. -/
def fromProvider (reg : Registry) (provider : ModelProvider) : List ModelConfig :=
  reg.filter (fun m => decide (m.provider = provider))

/-- Source function `where(predicate)`. -/
def whereCaps (reg : Registry) (predicate : ModelCapabilities → Bool) : List ModelConfig :=
  reg.filter (fun m => predicate m.capabilities)

/-- Source function `supporting(capability)`: keeps an entry when the field's value is the
boolean `true`, or — for a non-boolean field — when it is not `undefined`.
`ModelCapabilities` fields are all required in the interface, so a
non-boolean value is never `undefined`. -/
def supporting (reg : Registry) (capability : CapField) : List ModelConfig :=
  reg.filter (fun m =>
    match getCap m.capabilities capability with
    | .bool b => b
    | _ => true)

/-- Source function `withContext(minTokens)`. -/
def withContext (reg : Registry) (minTokens : ℚ) : List ModelConfig :=
  reg.filter (fun m => decide (minTokens ≤ m.contextWindow))

/-- Source function `directAccess()`. -/
def directAccess (reg : Registry) : List ModelConfig :=
  reg.filter (fun m => !m.openRouterOnly)

/-- Source function `openRouterOnly()`. -/
def openRouterOnly (reg : Registry) : List ModelConfig :=
  reg.filter (fun m => m.openRouterOnly)

-- ==========================================================================
-- Cost Engine (`utils.ts`)
-- ==========================================================================

/-- Embedding of `typeof model === 'string' ? lookup(model) : model`. -/
def resolveModel (reg : Registry) : ModelConfig ⊕ String → Option ModelConfig
  | .inl config => some config
  | .inr name => lookup reg name

/-- The key interpolated into the `Unknown model:` message (only ever reached
on the string side, where `resolveModel` can fail). -/
def keyString : ModelConfig ⊕ String → String
  | .inl config => config.name
  | .inr name => name

/-- The arithmetic core of `cost` once the config is resolved:
`cached` defaults to `0`, `uncached = input - cached`, and the result is
`inputCost + cacheCost + outputCost`. -/
def costTok (config : ModelConfig) (tokens : TokenUsage) : ℚ :=
  let cached := tokens.cached.getD 0
  let uncached := tokens.input - cached
  let inputCost := uncached / 1000000 * config.inputPrice
  let cacheCost := cached / 1000000 * config.inputPrice *
    config.capabilities.cacheDiscountFactor
  let outputCost := tokens.output / 1000000 * config.outputPrice
  inputCost + cacheCost + outputCost

/-- Source function `cost(model, tokens)`. -/
def cost (reg : Registry) (model : ModelConfig ⊕ String) (tokens : TokenUsage) :
    Except ModelError ℚ :=
  match resolveModel reg model with
  | Option.none => .error (.unknownModel (keyString model))
  | some config => .ok (costTok config tokens)

/-- Source function `maxCost(model, inputTokens)`: resolves, then
`cost(config, { input: inputTokens, output: config.maxOutputTokens })`. -/
def maxCost (reg : Registry) (model : ModelConfig ⊕ String) (inputTokens : ℚ) :
    Except ModelError ℚ :=
  match resolveModel reg model with
  | Option.none => .error (.unknownModel (keyString model))
  | some config =>
    cost reg (.inl config)
      { input := inputTokens, output := config.maxOutputTokens }

/-- One element of the `compareCosts` result: `{ model, cost }`. -/
structure CostPair where
  model : ModelConfig
  cost : ℚ
deriving DecidableEq, Repr

/-- The `.map` step of `compareCosts`: resolve each model and pair it with its
cost, throwing at the first unresolvable string key (JS `Array.map` applies
its callback left to right, so the first failure aborts the whole call). -/
def mapCosts (reg : Registry) (tokens : TokenUsage) :
    List (ModelConfig ⊕ String) → Except ModelError (List CostPair)
  | [] => .ok []
  | m :: rest =>
    match resolveModel reg m with
    | Option.none => .error (.unknownModel (keyString m))
    | some config =>
      match mapCosts reg tokens rest with
      | .error e => .error e
      | .ok ps => .ok (⟨config, costTok config tokens⟩ :: ps)

/-- Source function `compareCosts(models, tokens)`: map to `{ model, cost }` pairs, then
`.sort((a, b) => a.cost - b.cost)`. -/
def compareCosts (reg : Registry) (models : List (ModelConfig ⊕ String))
    (tokens : TokenUsage) : Except ModelError (List CostPair) :=
  match mapCosts reg tokens models with
  | .error e => .error e
  | .ok ps => .ok (sortByKey CostPair.cost ps)

-- ==========================================================================
-- Selection Engine (`utils.ts`)
-- ==========================================================================

/-- Combined price `inputPrice + outputPrice` of an entry. -/
def combined (m : ModelConfig) : ℚ := m.inputPrice + m.outputPrice

/-- A `Partial<ModelCapabilities>` requirement: the explicitly-specified
fields, as `Object.entries` would enumerate them. -/
abbrev CapReq := List (CapField × CapValue)

/-- The capability-equality loop shared by `cheapest` and `smartpick`:
reject the entry as soon as `m.capabilities[key] !== value` for a specified
field. -/
def capsMatch (caps : CapReq) (m : ModelConfig) : Bool :=
  caps.all (fun kv => decide (getCap m.capabilities kv.1 = kv.2))

/-- The `options` argument of `cheapest`. -/
structure SelOptions where
  minContext : Option ℚ := Option.none
  provider : Option ModelProvider := Option.none
deriving DecidableEq, Repr

/-- The filter body of `cheapest`. `options?.minContext && ...` applies the
context test only when `minContext` is present and truthy (`≠ 0`);
`options?.provider && ...` applies the provider test whenever present, enum
members being non-empty strings and hence truthy. -/
def cheapestFilter (caps : CapReq) (opts : SelOptions) (m : ModelConfig) : Bool :=
  (match opts.minContext with
   | some mc => !(decide (mc ≠ 0) && decide (m.contextWindow < mc))
   | Option.none => true) &&
  (match opts.provider with
   | some p => decide (m.provider = p)
   | Option.none => true) &&
  capsMatch caps m

/-- Source function `cheapest(capabilities, options?)`: filter, then
`candidates.sort((a, b) => combined a - combined b)[0]`
(`undefined` when no candidate survives). -/
def cheapest (reg : Registry) (caps : CapReq) (opts : SelOptions) :
    Option ModelConfig :=
  let candidates := reg.filter (cheapestFilter caps opts)
  (sortByKey combined candidates).head?

/-- Source function `smartpick(maxPricePerMillion, capabilities?)`: budget filter, optional
capability filter, then
`candidates.sort((a, b) => combined b - combined a)[0]` — a descending sort,
i.e. ascending in the key `-combined`. -/
def smartpick (reg : Registry) (maxPricePerMillion : ℚ)
    (caps : Option CapReq) : Option ModelConfig :=
  let candidates := reg.filter (fun m => decide (combined m ≤ maxPricePerMillion))
  let candidates :=
    match caps with
    | some cs => candidates.filter (capsMatch cs)
    | Option.none => candidates
  (sortByKey (fun m => -combined m) candidates).head?

/-- The `by` argument of `ranked`. -/
inductive RankMetric where
  | price
  | context
  | output
deriving DecidableEq, Repr

/-- The `order` argument of `ranked`. -/
inductive SortOrder where
  | asc
  | desc
deriving DecidableEq, Repr

/-- The `getValue` helper inside `ranked`. -/
def metricValue : RankMetric → ModelConfig → ℚ
  | .price, m => m.inputPrice + m.outputPrice
  | .context, m => m.contextWindow
  | .output, m => m.maxOutputTokens

/-- Source function `ranked(by, order)`: sorts all entries with comparator
`getValue a - getValue b` (ascending) or its negation (descending, i.e.
ascending in the key `-getValue`). -/
def ranked (reg : Registry) (metric : RankMetric) (order : SortOrder) :
    List ModelConfig :=
  match order with
  | .asc => sortByKey (metricValue metric) reg
  | .desc => sortByKey (fun m => -(metricValue metric m)) reg

-- ==========================================================================
-- Insights Engine (`utils.ts`)
-- ==========================================================================

/-- The eight watched capability flags of `insights`, with the short label the
source derives by stripping the `supports`/`Native` affixes, paired with the
truthiness test `m.capabilities[key]` (all eight are boolean fields). -/
def watchedCapabilities : List (String × (ModelCapabilities → Bool)) :=
  [("FunctionCalling", fun c => c.supportsFunctionCalling),
   ("Reasoning", fun c => c.supportsReasoning),
   ("Vision", fun c => c.supportsVision),
   ("CodeExecution", fun c => c.supportsNativeCodeExecution),
   ("WebSearch", fun c => c.supportsNativeWebSearch),
   ("PromptCaching", fun c => c.supportsPromptCaching),
   ("Pdf", fun c => c.supportsNativePdf),
   ("Audio", fun c => c.supportsNativeAudio)]

/-- The `pricing` field of the `insights` result. The source indexes the
ascending-sorted array with `[0]!` and `[length - 1]!`; we model the two
reads as `head?`/`getLast?`. -/
structure PriceExtremes where
  cheapestEntry : Option ModelConfig
  mostExpensive : Option ModelConfig
deriving DecidableEq, Repr

/-- The `context` field of the `insights` result. -/
structure ContextExtremes where
  smallest : Option ModelConfig
  largest : Option ModelConfig
deriving DecidableEq, Repr

/-- The `insights()` result. The `providers` record has one key per
enumerated provider (the source iterates `Object.values(ModelProvider)`), so
it is modelled as a total function on `ModelProvider`. -/
structure InsightsResult where
  totalModels : Nat
  providers : ModelProvider → Nat
  capabilities : List (String × Nat)
  pricing : PriceExtremes
  context : ContextExtremes

/-- Source function `insights()`. -/
def insights (reg : Registry) : InsightsResult :=
  let models := reg
  let byPrice := sortByKey combined models
  let byContext := sortByKey (fun m => m.contextWindow) models
  { totalModels := models.length
    providers := fun p => (models.filter (fun m => decide (m.provider = p))).length
    capabilities := watchedCapabilities.map
      (fun kf => (kf.1, (models.filter (fun m => kf.2 m.capabilities)).length))
    pricing :=
      { cheapestEntry := byPrice.head?
        mostExpensive := byPrice.getLast? }
    context :=
      { smallest := byContext.head?
        largest := byContext.getLast? } }

-- ==========================================================================
-- Concrete registry data from `src/providers` (used as concrete inputs)
-- ==========================================================================

/-- Source constant `DEEPSEEK_DEFAULT_CAPABILITIES` from `providers/deepseekModels.ts`. -/
def DEEPSEEK_DEFAULT_CAPABILITIES : ModelCapabilities :=
  { DEFAULT_MODEL_CAPABILITIES with
    supportsAutoPromptCaching := true
    cacheDiscountFactor := 0.1
    supportsVision := false }

/-- Entry `deepseek` of `DEEPSEEK_MODELS`. -/
def ds_deepseek : ModelConfig where
  name := "deepseek"
  fullName := "deepseek-chat"
  openrouterFullName := some "deepseek/deepseek-v3.2"
  provider := .deepseek
  maxOutputTokens := 8192
  contextWindow := 128000
  inputPrice := 0.28
  outputPrice := 0.42
  capabilities :=
    { DEEPSEEK_DEFAULT_CAPABILITIES with
      supportsAssistantPrefill := true
      supportsFunctionCalling := true }
  openRouterOnly := false

/-- Entry `deepseekT` of `DEEPSEEK_MODELS`. -/
def ds_deepseekT : ModelConfig where
  name := "deepseekT"
  fullName := "deepseek-reasoner"
  openrouterFullName := some "deepseek/deepseek-v3.2"
  provider := .deepseek
  maxOutputTokens := 65536
  contextWindow := 163840
  inputPrice := 0.28
  outputPrice := 0.42
  capabilities :=
    { DEEPSEEK_DEFAULT_CAPABILITIES with
      supportsReasoning := true
      supportsReasoningEffort := false
      supportsFunctionCalling := true
      supportsAssistantPrefill := true }
  openRouterOnly := false

/-- Entry `deepseekT+` of `DEEPSEEK_MODELS`. -/
def ds_deepseekTPlus : ModelConfig where
  name := "deepseekT+"
  fullName := "deepseek-reasoner"
  openrouterFullName := some "deepseek/deepseek-v3.2-speciale"
  provider := .deepseek
  maxOutputTokens := 131072
  contextWindow := 163840
  inputPrice := 0.28
  outputPrice := 0.42
  capabilities :=
    { DEEPSEEK_DEFAULT_CAPABILITIES with
      supportsReasoning := true
      supportsReasoningEffort := false
      supportsFunctionCalling := false
      supportsAssistantPrefill := false }
  openRouterOnly := false
  baseUrl := some "https://api.deepseek.com/v3.2_speciale_expires_on_20251215"
  deprecated := some true

/-- Entry `dsv3` of `DEEPSEEK_MODELS`. -/
def ds_dsv3 : ModelConfig where
  name := "dsv3"
  fullName := "deepseek-chat"
  openrouterFullName := some "deepseek/deepseek-chat-v3-0324"
  provider := .deepseek
  maxOutputTokens := 64000
  contextWindow := 128000
  inputPrice := 0.14
  outputPrice := 0.28
  capabilities :=
    { DEEPSEEK_DEFAULT_CAPABILITIES with supportsAssistantPrefill := true }
  openRouterOnly := false
  deprecated := some true

/-- Entry `dsr1` of `DEEPSEEK_MODELS`. -/
def ds_dsr1 : ModelConfig where
  name := "dsr1"
  fullName := "deepseek-reasoner"
  openrouterFullName := some "deepseek/deepseek-r1-0528"
  provider := .deepseek
  maxOutputTokens := 65536
  contextWindow := 128000
  inputPrice := 4
  outputPrice := 4
  capabilities :=
    { DEEPSEEK_DEFAULT_CAPABILITIES with
      supportsReasoning := true
      supportsReasoningEffort := false }
  openRouterOnly := false
  deprecated := some true

/-- Entry `dsv3o` of `DEEPSEEK_MODELS`. -/
def ds_dsv3o : ModelConfig where
  name := "dsv3o"
  fullName := "deepseek-chat"
  openrouterFullName := some "deepseek/deepseek-chat-v3-0324"
  provider := .deepseek
  maxOutputTokens := 8192
  contextWindow := 64000
  inputPrice := 0.27
  outputPrice := 1.1
  capabilities :=
    { DEEPSEEK_DEFAULT_CAPABILITIES with supportsAssistantPrefill := true }
  openRouterOnly := false
  deprecated := some true

/-- Entry `dsr1o` of `DEEPSEEK_MODELS`. -/
def ds_dsr1o : ModelConfig where
  name := "dsr1o"
  fullName := "deepseek-reasoner"
  openrouterFullName := some "deepseek/deepseek-r1-0528"
  provider := .deepseek
  maxOutputTokens := 64000
  contextWindow := 64000
  inputPrice := 0.55
  outputPrice := 2.19
  capabilities :=
    { DEEPSEEK_DEFAULT_CAPABILITIES with
      supportsReasoning := true
      supportsReasoningEffort := false }
  openRouterOnly := false
  deprecated := some true

/-- Embedding of `Object.values(DEEPSEEK_MODELS)` in insertion order
(`providers/deepseekModels.ts`). -/
def DEEPSEEK_MODELS : Registry :=
  [ds_deepseek, ds_deepseekT, ds_deepseekTPlus, ds_dsv3, ds_dsr1, ds_dsv3o,
   ds_dsr1o]

/-- Source constant `DASHSCOPE_DEFAULT_CAPABILITIES` from the DashScope provider module. -/
def DASHSCOPE_DEFAULT_CAPABILITIES : ModelCapabilities :=
  { DEFAULT_MODEL_CAPABILITIES with
    supportsPromptCaching := false
    supportsVision := true
    supportsSystemPrompt := true }

/-- Entry `qwen3max` of `DASHSCOPE_MODELS`. -/
def qwen3max : ModelConfig where
  name := "qwen3max"
  fullName := "qwen3-max"
  openrouterFullName := some "qwen/qwen-max"
  provider := .dashscope
  maxOutputTokens := 65536
  contextWindow := 262144
  inputPrice := 1.2
  outputPrice := 6
  capabilities := { DASHSCOPE_DEFAULT_CAPABILITIES with supportsVision := false }
  openRouterOnly := false

/-- Entry `qwenplus` of `DASHSCOPE_MODELS`. -/
def qwenplus : ModelConfig where
  name := "qwenplus"
  fullName := "qwen-plus"
  openrouterFullName := some "qwen/qwen-plus"
  provider := .dashscope
  maxOutputTokens := 32768
  contextWindow := 1000000
  inputPrice := 0.4
  outputPrice := 1.2
  capabilities :=
    { DASHSCOPE_DEFAULT_CAPABILITIES with
      supportsVision := false
      supportsReasoning := true }
  openRouterOnly := false

/-- Entry `qwenturbo` of `DASHSCOPE_MODELS`. -/
def qwenturbo : ModelConfig where
  name := "qwenturbo"
  fullName := "qwen-turbo-latest"
  openrouterFullName := some "qwen/qwen-turbo"
  provider := .dashscope
  maxOutputTokens := 8192
  contextWindow := 131072
  inputPrice := 0.05
  outputPrice := 0.5
  capabilities :=
    { DASHSCOPE_DEFAULT_CAPABILITIES with
      supportsVision := false
      supportsReasoning := true }
  openRouterOnly := false

/-- Embedding of `Object.values(DASHSCOPE_MODELS)` in insertion order. -/
def DASHSCOPE_MODELS : Registry :=
  [qwen3max, qwenplus, qwenturbo]

-- ==========================================================================
-- Demo entries (concrete witness inputs; not part of the repository data)
-- ==========================================================================

/-- The spec's scenario entry A: `inputPrice = 3`, `outputPrice = 15`,
`contextWindow = 200000`, `cacheDiscountFactor = 0.1`. -/
def demoA : ModelConfig where
  name := "A"
  fullName := "demo-a"
  provider := .anthropic
  maxOutputTokens := 64000
  inputPrice := 3
  outputPrice := 15
  contextWindow := 200000
  capabilities :=
    { DEFAULT_MODEL_CAPABILITIES with
      supportsPromptCaching := true
      cacheDiscountFactor := 0.1 }
  openRouterOnly := false

/-- Demo entry with combined price 2.0. -/
def demoMid : ModelConfig where
  name := "mid"
  fullName := "demo-mid"
  provider := .others
  maxOutputTokens := 8192
  inputPrice := 0.5
  outputPrice := 1.5
  contextWindow := 128000
  capabilities := DEFAULT_MODEL_CAPABILITIES
  openRouterOnly := false

/-- Demo entry with combined price 7.0. -/
def demoBig : ModelConfig where
  name := "big"
  fullName := "demo-big"
  provider := .others
  maxOutputTokens := 8192
  inputPrice := 2
  outputPrice := 5
  contextWindow := 128000
  capabilities := DEFAULT_MODEL_CAPABILITIES
  openRouterOnly := false

-- ==========================================================================
-- Spec-side predicates, written from the spec's words (for refinement
-- claims about `cheapest`, `smartpick` and `supporting`)
-- ==========================================================================

/-- Spec-side constraint of `cheapest`: "satisfies every explicitly-specified
capability field by equality, has `contextWindow >= options.minContext` when
`minContext` is given, has `provider` equal to `options.provider` when
given". -/
def cheapestSpecFilter (caps : CapReq) (opts : SelOptions) (m : ModelConfig) :
    Bool :=
  (match opts.minContext with
   | some mc => decide (mc ≤ m.contextWindow)
   | Option.none => true) &&
  (match opts.provider with
   | some p => decide (m.provider = p)
   | Option.none => true) &&
  caps.all (fun kv => decide (getCap m.capabilities kv.1 = kv.2))

/-- Spec-side constraint of `smartpick`: "entries with
`inputPrice + outputPrice <= b` and, when capabilities are given, matching
every specified capability field by equality". -/
def smartpickSpecFilter (maxPricePerMillion : ℚ) (caps : Option CapReq)
    (m : ModelConfig) : Bool :=
  decide (combined m ≤ maxPricePerMillion) &&
  (match caps with
   | some cs => capsMatch cs m
   | Option.none => true)

/-- Spec-side predicate of `supporting` per the claim: "for a boolean field,
the flag is true, and for a non-boolean field (`cacheDiscountFactor`,
`reasoningEffort`), the field's value is not the default/absent value for
that field" (defaults per `DEFAULT_MODEL_CAPABILITIES`). -/
def supportingSpecFilter (capability : CapField) (m : ModelConfig) : Bool :=
  match getCap m.capabilities capability with
  | .bool b => b
  | .num q => decide (q ≠ DEFAULT_MODEL_CAPABILITIES.cacheDiscountFactor)
  | .effort e => decide (e ≠ DEFAULT_MODEL_CAPABILITIES.reasoningEffort)

-- ==========================================================================
-- Lemmas about the stable sort
-- ==========================================================================

lemma filter_reverse_eq {α : Type*} (p : α → Bool) (l : List α) :
    l.reverse.filter p = (l.filter p).reverse := by
  induction l with
  | nil => rfl
  | cons a t ih =>
    simp only [List.reverse_cons, List.filter_append, List.filter_cons, ih]
    cases p a <;> simp

lemma find?_eq_head?_filter {α : Type*} (p : α → Bool) (l : List α) :
    l.find? p = (l.filter p).head? := by
  induction l with
  | nil => rfl
  | cons a t ih =>
    rw [List.find?_cons, List.filter_cons]
    cases h : p a
    · simp only [Bool.false_eq_true, if_false]; exact ih
    · simp

lemma find?_filter {α : Type*} (f q : α → Bool) (l : List α) :
    (l.filter f).find? q = l.find? (fun a => f a && q a) := by
  rw [find?_eq_head?_filter, find?_eq_head?_filter, List.filter_filter]
  congr 1
  exact List.filter_congr (fun x _ => Bool.and_comm (q x) (f x))

lemma perm_sortByKey {α : Type*} (key : α → ℚ) (l : List α) :
    List.Perm (sortByKey key l) l :=
  List.perm_insertionSort (keyLe key) l

lemma sorted_sortByKey {α : Type*} (key : α → ℚ) (l : List α) :
    (sortByKey key l).Pairwise (fun a b => key a ≤ key b) :=
  List.sorted_insertionSort (keyLe key) l

lemma sortByKey_nil_iff {α : Type*} (key : α → ℚ) (l : List α) :
    sortByKey key l = [] ↔ l = [] := by
  constructor
  · intro h
    have hp := perm_sortByKey key l
    rw [h] at hp
    exact hp.symm.eq_nil
  · intro h
    rw [h]; rfl

lemma filter_orderedInsert {α : Type*} (key : α → ℚ) (c : ℚ) (x : α)
    (l : List α) :
    ((l.orderedInsert (keyLe key) x).filter (fun a => decide (key a = c))) =
      if key x = c then x :: l.filter (fun a => decide (key a = c))
      else l.filter (fun a => decide (key a = c)) := by
  induction l with
  | nil =>
    by_cases h : key x = c <;> simp [List.orderedInsert, List.filter, h]
  | cons b t ih =>
    rw [List.orderedInsert]
    by_cases hle : keyLe key x b
    · rw [if_pos hle]
      by_cases h : key x = c <;> simp [List.filter_cons, h]
    · rw [if_neg hle]
      have hbx : key b < key x := lt_of_not_le hle
      by_cases h : key x = c
      · have hb : ¬ (key b = c) := by
          rw [← h]; exact ne_of_lt hbx
        simp [List.filter_cons, hb, ih, h]
      · simp [List.filter_cons, ih, h]

lemma filter_sortByKey {α : Type*} (key : α → ℚ) (c : ℚ) (l : List α) :
    (sortByKey key l).filter (fun a => decide (key a = c)) =
      l.filter (fun a => decide (key a = c)) := by
  induction l with
  | nil => rfl
  | cons b t ih =>
    show ((List.insertionSort (keyLe key) t).orderedInsert (keyLe key) b).filter _ = _
    rw [filter_orderedInsert]
    by_cases h : key b = c
    · rw [if_pos h]
      rw [show List.insertionSort (keyLe key) t = sortByKey key t from rfl, ih]
      simp [List.filter_cons, h]
    · rw [if_neg h]
      rw [show List.insertionSort (keyLe key) t = sortByKey key t from rfl, ih]
      simp [List.filter_cons, h]

lemma head?_sortByKey_spec {α : Type*} (key : α → ℚ) (l : List α) (m : α)
    (h : (sortByKey key l).head? = some m) :
    m ∈ l ∧ (∀ x ∈ l, key m ≤ key x) ∧
      l.find? (fun x => decide (key x = key m)) = some m := by
  obtain ⟨rest, hrest⟩ : ∃ rest, sortByKey key l = m :: rest := by
    cases hs : sortByKey key l with
    | nil => rw [hs] at h; exact absurd h (by simp)
    | cons a r =>
      rw [hs, List.head?_cons] at h
      exact ⟨r, by rw [Option.some_inj] at h; rw [← h]⟩
  have hperm := perm_sortByKey key l
  have hmem : m ∈ l := hperm.subset (hrest ▸ List.mem_cons_self m rest)
  have hsorted := sorted_sortByKey key l
  rw [hrest] at hsorted
  have hmin : ∀ x ∈ l, key m ≤ key x := by
    intro x hx
    have hx' : x ∈ m :: rest := hrest ▸ hperm.mem_iff.mpr hx
    rcases List.mem_cons.mp hx' with h' | h'
    · rw [h']
    · exact (List.pairwise_cons.mp hsorted).1 x h'
  refine ⟨hmem, hmin, ?_⟩
  rw [find?_eq_head?_filter, ← filter_sortByKey key (key m) l, hrest,
    List.filter_cons]
  simp

lemma getLast?_sortByKey_spec {α : Type*} (key : α → ℚ) (l : List α) (m : α)
    (h : (sortByKey key l).getLast? = some m) :
    m ∈ l ∧ (∀ x ∈ l, key x ≤ key m) ∧
      l.reverse.find? (fun x => decide (key x = key m)) = some m := by
  rw [← List.head?_reverse] at h
  obtain ⟨rest, hrest⟩ : ∃ rest, (sortByKey key l).reverse = m :: rest := by
    cases hs : (sortByKey key l).reverse with
    | nil => rw [hs] at h; exact absurd h (by simp)
    | cons a r =>
      rw [hs, List.head?_cons] at h
      exact ⟨r, by rw [Option.some_inj] at h; rw [← h]⟩
  have hperm := perm_sortByKey key l
  have hmem : m ∈ l := by
    have : m ∈ (sortByKey key l).reverse := hrest ▸ List.mem_cons_self m rest
    exact hperm.subset (List.mem_reverse.mp this)
  have hsorted : (sortByKey key l).reverse.Pairwise (fun a b => key b ≤ key a) :=
    List.pairwise_reverse.mpr (sorted_sortByKey key l)
  rw [hrest] at hsorted
  have hmax : ∀ x ∈ l, key x ≤ key m := by
    intro x hx
    have hx' : x ∈ m :: rest := by
      rw [← hrest, List.mem_reverse]
      exact hperm.mem_iff.mpr hx
    rcases List.mem_cons.mp hx' with h' | h'
    · rw [h']
    · exact (List.pairwise_cons.mp hsorted).1 x h'
  refine ⟨hmem, hmax, ?_⟩
  rw [find?_eq_head?_filter, filter_reverse_eq, List.head?_reverse,
    ← filter_sortByKey key (key m) l]
  rw [← List.head?_reverse, ← filter_reverse_eq, hrest, List.filter_cons]
  simp

lemma eq_of_perm_of_sorted_nodupKeys {α : Type*} (key : α → ℚ) :
    ∀ (l₁ l₂ : List α), List.Perm l₁ l₂ →
      l₁.Pairwise (fun a b => key a ≤ key b) →
      l₂.Pairwise (fun a b => key a ≤ key b) →
      (l₁.map key).Nodup → l₁ = l₂ := by
  intro l₁
  induction l₁ with
  | nil =>
    intro l₂ hp _ _ _
    exact (hp.symm.eq_nil).symm
  | cons a t ih =>
    intro l₂ hp h₁ h₂ hnd
    cases l₂ with
    | nil => exact absurd hp.eq_nil (by simp)
    | cons b t₂ =>
      have hab : key a ≤ key b := by
        have hb : b ∈ a :: t := hp.mem_iff.mpr (List.mem_cons_self b t₂)
        rcases List.mem_cons.mp hb with h' | h'
        · rw [h']
        · exact (List.pairwise_cons.mp h₁).1 b h'
      have hba : key b ≤ key a := by
        have ha : a ∈ b :: t₂ := hp.mem_iff.mp (List.mem_cons_self a t)
        rcases List.mem_cons.mp ha with h' | h'
        · rw [h']
        · exact (List.pairwise_cons.mp h₂).1 a h'
      have hk : key a = key b := le_antisymm hab hba
      have hb : b ∈ a :: t := hp.mem_iff.mpr (List.mem_cons_self b t₂)
      have heq : b = a := by
        rcases List.mem_cons.mp hb with h' | h'
        · exact h'
        · exfalso
          have : key a ∈ t.map key := by
            rw [hk]
            exact List.mem_map.mpr ⟨b, h', rfl⟩
          exact (List.nodup_cons.mp (by simpa using hnd)).1 this
      subst heq
      have htails : List.Perm t t₂ := hp.cons_inv
      have := ih t₂ htails (List.pairwise_cons.mp h₁).2
        (List.pairwise_cons.mp h₂).2 (by simpa using (List.nodup_cons.mp (by simpa using hnd)).2)
      rw [this]

-- ==========================================================================
-- C1: cost formula and cached-default
-- ==========================================================================

/-- C1: for every catalog entry and usage with `input ≥ 0`, `output ≥ 0`,
`0 ≤ cached ≤ input`, `cost` equals
`((input - cached)/1e6)·inputPrice + (cached/1e6)·inputPrice·cacheDiscountFactor
+ (output/1e6)·outputPrice`, and an omitted `cached` defaults to `0`. -/
theorem cost_formula (reg : Registry) (e : ModelConfig) (input output c : ℚ)
    (h1 : 0 ≤ input) (h2 : 0 ≤ output) (h3 : 0 ≤ c) (h4 : c ≤ input) :
    cost reg (.inl e) ⟨input, output, some c⟩ =
      .ok ((input - c) / 1000000 * e.inputPrice
        + c / 1000000 * e.inputPrice * e.capabilities.cacheDiscountFactor
        + output / 1000000 * e.outputPrice) ∧
    cost reg (.inl e) ⟨input, output, Option.none⟩ =
      cost reg (.inl e) ⟨input, output, some 0⟩ :=
  ⟨rfl, rfl⟩

/-- Witness for C1 at the spec's concrete scenario: entry A
(`inputPrice 3, outputPrice 15, cacheDiscountFactor 0.1`) on
`{input: 10000, output: 5000, cached: 8000}` costs `0.0834`. -/
theorem cost_formula_witness :
    cost [] (.inl demoA) ⟨10000, 5000, some 8000⟩ = .ok 0.0834 := by
  have h := (cost_formula [] demoA 10000 5000 8000 (by norm_num) (by norm_num)
    (by norm_num) (by norm_num)).1
  rw [h]
  norm_num [demoA, DEFAULT_MODEL_CAPABILITIES]

-- ==========================================================================
-- C9: maxCost dominance
-- ==========================================================================

/-- C9: `maxCost(entry, n)` equals
`cost(entry, {input: n, output: maxOutputTokens, cached: 0})`, and for
non-negative prices it dominates the cost of any usage with the same input
and `0 ≤ k ≤ maxOutputTokens` output tokens. -/
theorem maxCost_dominates (reg : Registry) (e : ModelConfig) (n k : ℚ)
    (hip : 0 ≤ e.inputPrice) (hop : 0 ≤ e.outputPrice) (hn : 0 ≤ n)
    (hk0 : 0 ≤ k) (hk : k ≤ e.maxOutputTokens) :
    maxCost reg (.inl e) n =
      cost reg (.inl e) ⟨n, e.maxOutputTokens, some 0⟩ ∧
    maxCost reg (.inl e) n =
      .ok (costTok e ⟨n, e.maxOutputTokens, Option.none⟩) ∧
    costTok e ⟨n, k, Option.none⟩ ≤
      costTok e ⟨n, e.maxOutputTokens, Option.none⟩ := by
  refine ⟨rfl, rfl, ?_⟩
  unfold costTok
  simp only [Option.getD_none]
  have hexp : e.maxOutputTokens / 1000000 * e.outputPrice =
      k / 1000000 * e.outputPrice +
        (e.maxOutputTokens - k) / 1000000 * e.outputPrice := by
    ring
  have hd : 0 ≤ (e.maxOutputTokens - k) / 1000000 * e.outputPrice :=
    mul_nonneg (div_nonneg (by linarith) (by norm_num)) hop
  linarith [hexp, hd]

/-- Witness for C9 at the `deepseek` entry with `n = 1000`, `k = 100`. -/
theorem maxCost_dominates_witness :
    maxCost [] (.inl ds_deepseek) 1000 =
      cost [] (.inl ds_deepseek) ⟨1000, ds_deepseek.maxOutputTokens, some 0⟩ ∧
    costTok ds_deepseek ⟨1000, 100, Option.none⟩ ≤
      costTok ds_deepseek ⟨1000, ds_deepseek.maxOutputTokens, Option.none⟩ := by
  have h := maxCost_dominates [] ds_deepseek 1000 100
    (by norm_num [ds_deepseek]) (by norm_num [ds_deepseek]) (by norm_num)
    (by norm_num) (by norm_num [ds_deepseek])
  exact ⟨h.1, h.2.2⟩

-- ==========================================================================
-- C7: cached > input is neither clamped nor rejected
-- ==========================================================================

/-- C7 counterexample: on the `deepseek` entry
(`inputPrice 0.28, cacheDiscountFactor 0.1`) with
`{input: 1000, output: 0, cached: 2000}`, `cost` silently returns the
negative value `-0.000224` — it neither clamps the cached amount nor rejects
the usage. -/
theorem cost_no_clamp_cex :
    cost [] (.inl ds_deepseek) ⟨1000, 0, some 2000⟩ = .ok (-(7 / 31250)) ∧
    (-(7 / 31250) : ℚ) < 0 := by
  constructor
  · show Except.ok (costTok ds_deepseek ⟨1000, 0, some 2000⟩) = _
    norm_num [costTok, ds_deepseek, DEEPSEEK_DEFAULT_CAPABILITIES,
      DEFAULT_MODEL_CAPABILITIES]
  · norm_num

/-- C7 (amended): `cost` performs no input validation. When `cached > input`
it silently computes the formula with the negative uncached term included,
and (whenever `inputPrice > 0` and `cacheDiscountFactor < 1`) the result is
strictly below the cost of the clamped usage `cached := input`. -/
theorem cost_negative_uncached (e : ModelConfig) (input output c : ℚ)
    (hc : input < c) (hip : 0 < e.inputPrice)
    (hf : e.capabilities.cacheDiscountFactor < 1) :
    cost [] (.inl e) ⟨input, output, some c⟩ =
      .ok ((input - c) / 1000000 * e.inputPrice
        + c / 1000000 * e.inputPrice * e.capabilities.cacheDiscountFactor
        + output / 1000000 * e.outputPrice) ∧
    costTok e ⟨input, output, some c⟩ <
      costTok e ⟨input, output, some input⟩ := by
  refine ⟨rfl, ?_⟩
  unfold costTok
  simp only [Option.getD_some]
  have key : 0 < (c - input) / 1000000 * e.inputPrice *
      (1 - e.capabilities.cacheDiscountFactor) :=
    mul_pos (mul_pos (div_pos (by linarith) (by norm_num)) hip) (by linarith)
  nlinarith [key]

/-- Witness for the amended C7 at the `deepseek` entry. -/
theorem cost_negative_uncached_witness :
    costTok ds_deepseek ⟨1000, 0, some 2000⟩ <
      costTok ds_deepseek ⟨1000, 0, some 1000⟩ :=
  (cost_negative_uncached ds_deepseek 1000 0 2000 (by norm_num)
    (by norm_num [ds_deepseek])
    (by norm_num [ds_deepseek, DEEPSEEK_DEFAULT_CAPABILITIES,
      DEFAULT_MODEL_CAPABILITIES])).2

-- ==========================================================================
-- C4: error behaviour of the Cost Engine
-- ==========================================================================

lemma mapCosts_ok_iff (reg : Registry) (t : TokenUsage) :
    ∀ ms : List (ModelConfig ⊕ String),
      (∃ ps, mapCosts reg t ms = .ok ps) ↔
        ∀ mm ∈ ms, (resolveModel reg mm).isSome := by
  intro ms
  induction ms with
  | nil => simp [mapCosts]
  | cons m rest ih =>
    rw [mapCosts]
    cases hr : resolveModel reg m with
    | none =>
      simp only [List.mem_cons]
      constructor
      · rintro ⟨ps, hps⟩; cases hps
      · intro hall
        have := hall m (Or.inl rfl)
        rw [hr] at this
        cases this
    | some config =>
      cases hmc : mapCosts reg t rest with
      | error err =>
        simp only [List.mem_cons]
        constructor
        · rintro ⟨ps, hps⟩; cases hps
        · intro hall
          have : ∃ ps, mapCosts reg t rest = .ok ps :=
            ih.mpr (fun mm hmm => hall mm (Or.inr hmm))
          rw [hmc] at this
          obtain ⟨ps, hps⟩ := this
          cases hps
      | ok ps =>
        simp only [List.mem_cons]
        constructor
        · intro _ mm hmm
          rcases hmm with h' | h'
          · rw [h', hr]; rfl
          · exact ih.mp ⟨ps, hmc⟩ mm h'
        · intro _
          exact ⟨⟨config, costTok config t⟩ :: ps, rfl⟩

lemma mapCosts_error (reg : Registry) (t : TokenUsage) :
    ∀ (ms : List (ModelConfig ⊕ String)) (err : ModelError),
      mapCosts reg t ms = .error err →
        ∃ s', err = .unknownModel s' ∧ Sum.inr s' ∈ ms ∧
          lookup reg s' = Option.none := by
  intro ms
  induction ms with
  | nil => intro err h; cases h
  | cons m rest ih =>
    intro err h
    rw [mapCosts] at h
    cases hr : resolveModel reg m with
    | none =>
      rw [hr] at h
      cases m with
      | inl config => cases hr
      | inr s =>
        refine ⟨s, ?_, List.mem_cons_self _ _, hr⟩
        cases h
        rfl
    | some config =>
      rw [hr] at h
      cases hmc : mapCosts reg t rest with
      | error err' =>
        rw [hmc] at h
        cases h
        obtain ⟨s', hs1, hs2, hs3⟩ := ih err hmc
        exact ⟨s', hs1, List.mem_cons_of_mem _ hs2, hs3⟩
      | ok ps =>
        rw [hmc] at h
        cases h

/-- C4: the Cost Engine fails with an `UnknownModel` error carrying the
offending key exactly when a supplied string key has no registry entry under
`lookup`; given a resolved entry it always succeeds. (The Query and Selection
Engines are total by construction in this embedding: they return
`Option`/`List` values, mirroring code that contains no `throw`.) -/
theorem cost_engine_error_iff (reg : Registry) (s : String) (e : ModelConfig)
    (t : TokenUsage) (n : ℚ) (models : List (ModelConfig ⊕ String)) :
    (cost reg (.inr s) t = .error (.unknownModel s) ↔
      lookup reg s = Option.none) ∧
    ((∃ q, cost reg (.inr s) t = .ok q) ↔ (lookup reg s).isSome) ∧
    cost reg (.inl e) t = .ok (costTok e t) ∧
    (maxCost reg (.inr s) n = .error (.unknownModel s) ↔
      lookup reg s = Option.none) ∧
    ((∃ q, maxCost reg (.inr s) n = .ok q) ↔ (lookup reg s).isSome) ∧
    maxCost reg (.inl e) n =
      .ok (costTok e ⟨n, e.maxOutputTokens, Option.none⟩) ∧
    ((∃ ps, compareCosts reg models t = .ok ps) ↔
      ∀ mm ∈ models, (resolveModel reg mm).isSome) ∧
    (∀ err, compareCosts reg models t = .error err →
      ∃ s', err = .unknownModel s' ∧ Sum.inr s' ∈ models ∧
        lookup reg s' = Option.none) := by
  refine ⟨?_, ?_, rfl, ?_, ?_, rfl, ?_, ?_⟩
  · unfold cost resolveModel
    cases hl : lookup reg s <;> simp [hl, keyString]
  · unfold cost resolveModel
    cases hl : lookup reg s <;> simp [hl, keyString]
  · unfold maxCost resolveModel
    cases hl : lookup reg s <;> simp [hl, keyString, cost, resolveModel]
  · unfold maxCost resolveModel
    cases hl : lookup reg s <;> simp [hl, keyString, cost, resolveModel]
  · unfold compareCosts
    cases hmc : mapCosts reg t models with
    | error err =>
      simp only
      constructor
      · rintro ⟨ps, hps⟩; cases hps
      · intro hall
        have := (mapCosts_ok_iff reg t models).mpr hall
        rw [hmc] at this
        obtain ⟨ps, hps⟩ := this
        cases hps
    | ok ps =>
      simp only
      constructor
      · intro _
        exact (mapCosts_ok_iff reg t models).mp ⟨ps, hmc⟩
      · intro _
        exact ⟨sortByKey CostPair.cost ps, rfl⟩
  · intro err herr
    unfold compareCosts at herr
    cases hmc : mapCosts reg t models with
    | error err' =>
      rw [hmc] at herr
      cases herr
      exact mapCosts_error reg t models err hmc
    | ok ps =>
      rw [hmc] at herr
      cases herr

/-- Witness for C4: over the DeepSeek registry, a `cost` call with the
unknown key `"nope"` errors with exactly that key, and a call on a resolved
entry succeeds. -/
theorem cost_engine_error_iff_witness :
    cost DEEPSEEK_MODELS (.inr "nope") ⟨1, 1, Option.none⟩ =
      .error (.unknownModel "nope") ∧
    cost DEEPSEEK_MODELS (.inl ds_deepseek) ⟨1, 1, Option.none⟩ =
      .ok (costTok ds_deepseek ⟨1, 1, Option.none⟩) := by
  have h := cost_engine_error_iff DEEPSEEK_MODELS "nope" ds_deepseek
    ⟨1, 1, Option.none⟩ 1 []
  refine ⟨h.1.mpr ?_, h.2.2.1⟩
  simp [lookup, DEEPSEEK_MODELS, ds_deepseek, ds_deepseekT, ds_deepseekTPlus,
    ds_dsv3, ds_dsr1, ds_dsv3o, ds_dsr1o]

-- ==========================================================================
-- C8: compareCosts is a stable ascending sort of the per-entry costs
-- ==========================================================================

lemma mapCosts_all_inl (reg : Registry) (t : TokenUsage) :
    ∀ entries : List ModelConfig,
      mapCosts reg t (entries.map Sum.inl) =
        .ok (entries.map (fun e => ⟨e, costTok e t⟩)) := by
  intro entries
  induction entries with
  | nil => rfl
  | cons e rest ih =>
    rw [List.map_cons, mapCosts, ih]
    rfl

/-- C8: for a list of catalog entries, `compareCosts` returns one
`{entry, cost}` pair per input entry with `cost = cost(entry, usage)`,
ordered ascending by cost, equal costs keeping input order (stable sort). -/
theorem compareCosts_sorted (reg : Registry) (entries : List ModelConfig)
    (t : TokenUsage) :
    compareCosts reg (entries.map Sum.inl) t =
      .ok (sortByKey CostPair.cost
        (entries.map (fun e => ⟨e, costTok e t⟩))) ∧
    List.Perm
      (sortByKey CostPair.cost (entries.map (fun e => ⟨e, costTok e t⟩)))
      (entries.map (fun e => ⟨e, costTok e t⟩)) ∧
    (sortByKey CostPair.cost
      (entries.map (fun e => ⟨e, costTok e t⟩))).Pairwise
        (fun a b => a.cost ≤ b.cost) ∧
    (∀ pr ∈ sortByKey CostPair.cost
        (entries.map (fun e => ⟨e, costTok e t⟩)),
      pr.cost = costTok pr.model t) ∧
    (∀ c, (sortByKey CostPair.cost
        (entries.map (fun e => ⟨e, costTok e t⟩))).filter
          (fun pr => decide (pr.cost = c)) =
      (entries.map (fun e => ⟨e, costTok e t⟩)).filter
        (fun pr => decide (pr.cost = c))) := by
  refine ⟨?_, perm_sortByKey _ _, sorted_sortByKey _ _, ?_, ?_⟩
  · unfold compareCosts
    rw [mapCosts_all_inl]
  · intro pr hpr
    have hmem : pr ∈ entries.map (fun e => (⟨e, costTok e t⟩ : CostPair)) :=
      (perm_sortByKey CostPair.cost _).subset hpr
    obtain ⟨e, _, he⟩ := List.mem_map.mp hmem
    rw [← he]
  · intro c
    exact filter_sortByKey CostPair.cost c _

/-- Witness for C8 at the spec's scenario 9: with
`{input: 1e6, output: 0}`, the cheap entry (`dsv3`, cost `0.14`) is returned
before the expensive one (`dsr1`, cost `4`). -/
theorem compareCosts_sorted_witness :
    compareCosts [] ([ds_dsr1, ds_dsv3].map Sum.inl) ⟨1000000, 0, Option.none⟩ =
      .ok [⟨ds_dsv3, costTok ds_dsv3 ⟨1000000, 0, Option.none⟩⟩,
           ⟨ds_dsr1, costTok ds_dsr1 ⟨1000000, 0, Option.none⟩⟩] := by
  have h := (compareCosts_sorted [] [ds_dsr1, ds_dsv3]
    ⟨1000000, 0, Option.none⟩).1
  rw [h]
  norm_num [sortByKey, List.insertionSort, List.orderedInsert, keyLe, costTok,
    ds_dsr1, ds_dsv3, DEEPSEEK_DEFAULT_CAPABILITIES,
    DEFAULT_MODEL_CAPABILITIES]

-- ==========================================================================
-- C2: cheapest
-- ==========================================================================

lemma cheapestFilter_eq_spec (caps : CapReq) (opts : SelOptions)
    (m : ModelConfig) (hcw : 0 ≤ m.contextWindow) :
    cheapestFilter caps opts m = cheapestSpecFilter caps opts m := by
  unfold cheapestFilter cheapestSpecFilter
  congr 1
  cases hmo : opts.minContext with
  | none => rfl
  | some mc =>
    by_cases hmc : mc = 0
    · subst hmc
      simp [hcw]
    · by_cases h : m.contextWindow < mc
      · have h2 : ¬(mc ≤ m.contextWindow) := not_le.mpr h
        simp [hmc, h, h2]
      · have h2 : mc ≤ m.contextWindow := not_lt.mp h
        simp [hmc, h, h2]

/-- C2: the result of `cheapest(capabilities, options)`, if present,
satisfies every explicitly-specified capability field by equality, meets the
`minContext`/`provider` options, and is the first entry in registry order
attaining the minimal `inputPrice + outputPrice` among the qualifying
entries; the result is absent iff no registry entry qualifies. (The
hypothesis `0 ≤ contextWindow` holds for every real entry by the §3
invariant; it bridges the code's truthiness test on `minContext = 0`.) -/
theorem cheapest_spec (reg : Registry) (caps : CapReq) (opts : SelOptions)
    (hcw : ∀ e ∈ reg, 0 ≤ e.contextWindow) :
    (cheapest reg caps opts = Option.none ↔
      reg.filter (cheapestSpecFilter caps opts) = []) ∧
    (∀ m, cheapest reg caps opts = some m →
      cheapestSpecFilter caps opts m = true ∧
      (∀ m' ∈ reg, cheapestSpecFilter caps opts m' = true →
        combined m ≤ combined m') ∧
      reg.find? (fun m' => cheapestSpecFilter caps opts m' &&
        decide (combined m' = combined m)) = some m) := by
  have hfe : reg.filter (cheapestFilter caps opts) =
      reg.filter (cheapestSpecFilter caps opts) :=
    List.filter_congr
      (fun x hx => cheapestFilter_eq_spec caps opts x (hcw x hx))
  constructor
  · show (sortByKey combined (reg.filter (cheapestFilter caps opts))).head?
        = Option.none ↔ _
    rw [hfe, List.head?_eq_none_iff]
    exact sortByKey_nil_iff combined _
  · intro m hm
    have hm' : (sortByKey combined
        (reg.filter (cheapestSpecFilter caps opts))).head? = some m := by
      rw [← hfe]; exact hm
    obtain ⟨hmem, hmin, hfind⟩ := head?_sortByKey_spec combined _ m hm'
    refine ⟨(List.mem_filter.mp hmem).2, ?_, ?_⟩
    · intro m' hmr hspec
      exact hmin m' (List.mem_filter.mpr ⟨hmr, hspec⟩)
    · rw [← find?_filter]
      exact hfind

/-- Witness for C2: over the DeepSeek registry, requiring
`supportsReasoning = true` with `minContext = 130000` selects `deepseekT` —
the first of the two qualifying entries tied at combined price `0.7`. -/
theorem cheapest_spec_witness :
    cheapestSpecFilter [(CapField.supportsReasoning, CapValue.bool true)]
      ⟨some 130000, Option.none⟩ ds_deepseekT = true ∧
    DEEPSEEK_MODELS.find?
      (fun m' => cheapestSpecFilter
          [(CapField.supportsReasoning, CapValue.bool true)]
          ⟨some 130000, Option.none⟩ m' &&
        decide (combined m' = combined ds_deepseekT)) = some ds_deepseekT := by
  have h := (cheapest_spec DEEPSEEK_MODELS
      [(CapField.supportsReasoning, CapValue.bool true)]
      ⟨some 130000, Option.none⟩
      (by
        norm_num [DEEPSEEK_MODELS, List.forall_mem_cons, ds_deepseek,
          ds_deepseekT, ds_deepseekTPlus, ds_dsv3, ds_dsr1, ds_dsv3o,
          ds_dsr1o])).2
    ds_deepseekT
    (by
      norm_num [cheapest, cheapestFilter, capsMatch, getCap, sortByKey,
        List.insertionSort, List.orderedInsert, keyLe, combined,
        List.filter_cons, DEEPSEEK_MODELS, ds_deepseek, ds_deepseekT,
        ds_deepseekTPlus, ds_dsv3, ds_dsr1, ds_dsv3o, ds_dsr1o,
        DEEPSEEK_DEFAULT_CAPABILITIES, DEFAULT_MODEL_CAPABILITIES])
  exact ⟨h.1, h.2.2⟩

-- ==========================================================================
-- C3: smartpick
-- ==========================================================================

lemma smartpick_candidates_eq (reg : Registry) (maxPricePerMillion : ℚ)
    (caps : Option CapReq) :
    (match caps with
     | some cs =>
       (reg.filter (fun m => decide (combined m ≤ maxPricePerMillion))).filter
         (capsMatch cs)
     | Option.none =>
       reg.filter (fun m => decide (combined m ≤ maxPricePerMillion))) =
      reg.filter (smartpickSpecFilter maxPricePerMillion caps) := by
  cases caps with
  | none =>
    exact List.filter_congr (fun x _ => by
      unfold smartpickSpecFilter
      rw [Bool.and_true])
  | some cs =>
    show (reg.filter (fun m => decide (combined m ≤ maxPricePerMillion))).filter
        (capsMatch cs) = _
    rw [List.filter_filter]
    exact List.filter_congr (fun x _ => by
      unfold smartpickSpecFilter
      rw [Bool.and_comm])

/-- C3: `smartpick(b, capabilities?)` restricts the registry to entries with
`inputPrice + outputPrice ≤ b` (and matching every specified capability field
when capabilities are given) and returns an entry with MAXIMAL combined price
among the survivors; it returns absent exactly when no entry qualifies. -/
theorem smartpick_spec (reg : Registry) (maxPricePerMillion : ℚ)
    (caps : Option CapReq) :
    (smartpick reg maxPricePerMillion caps = Option.none ↔
      reg.filter (smartpickSpecFilter maxPricePerMillion caps) = []) ∧
    (∀ m, smartpick reg maxPricePerMillion caps = some m →
      smartpickSpecFilter maxPricePerMillion caps m = true ∧
      (∀ m' ∈ reg, smartpickSpecFilter maxPricePerMillion caps m' = true →
        combined m' ≤ combined m)) := by
  have hc := smartpick_candidates_eq reg maxPricePerMillion caps
  constructor
  · show (sortByKey (fun m => -combined m) _).head? = Option.none ↔ _
    rw [hc, List.head?_eq_none_iff]
    exact sortByKey_nil_iff _ _
  · intro m hm
    have hm' : (sortByKey (fun m => -combined m)
        (reg.filter (smartpickSpecFilter maxPricePerMillion caps))).head?
          = some m := by
      rw [← hc]; exact hm
    obtain ⟨hmem, hmin, _⟩ :=
      head?_sortByKey_spec (fun m => -combined m) _ m hm'
    refine ⟨(List.mem_filter.mp hmem).2, ?_⟩
    intro m' hmr hspec
    have := hmin m' (List.mem_filter.mpr ⟨hmr, hspec⟩)
    linarith [this]

/-- Witness for C3 at the spec's scenario 10: over a registry with combined
prices `0.55`, `2.0`, `7.0`, `smartpick(5)` picks the entry priced `2.0`
(max under budget), not `0.55`. -/
theorem smartpick_spec_witness :
    smartpick [qwenturbo, demoMid, demoBig] 5 Option.none = some demoMid ∧
    smartpickSpecFilter 5 Option.none demoMid = true := by
  have heval : smartpick [qwenturbo, demoMid, demoBig] 5 Option.none
      = some demoMid := by
    norm_num [smartpick, sortByKey, List.insertionSort, List.orderedInsert,
      keyLe, combined, List.filter_cons, qwenturbo, demoMid, demoBig,
      DASHSCOPE_DEFAULT_CAPABILITIES, DEFAULT_MODEL_CAPABILITIES]
  have h := (smartpick_spec [qwenturbo, demoMid, demoBig] 5 Option.none).2
    demoMid heval
  exact ⟨heval, h.1⟩

-- ==========================================================================
-- C10: ranked
-- ==========================================================================

/-- C10: `ranked(metric, order)` returns all registry entries sorted by the
metric in the requested order with ties keeping registry iteration order
(stable sort: a permutation, sorted, and filtering to any one metric value
preserves registry order), and when no two entries share the same metric
value, reversing the ascending ranking yields the descending one. -/
theorem ranked_spec (reg : Registry) (metric : RankMetric) :
    List.Perm (ranked reg metric .asc) reg ∧
    (ranked reg metric .asc).Pairwise
      (fun a b => metricValue metric a ≤ metricValue metric b) ∧
    (∀ c, (ranked reg metric .asc).filter
        (fun m => decide (metricValue metric m = c)) =
      reg.filter (fun m => decide (metricValue metric m = c))) ∧
    List.Perm (ranked reg metric .desc) reg ∧
    (ranked reg metric .desc).Pairwise
      (fun a b => metricValue metric b ≤ metricValue metric a) ∧
    (∀ c, (ranked reg metric .desc).filter
        (fun m => decide (metricValue metric m = c)) =
      reg.filter (fun m => decide (metricValue metric m = c))) ∧
    ((reg.map (metricValue metric)).Nodup →
      (ranked reg metric .asc).reverse = ranked reg metric .desc) := by
  have hcongr : ∀ (c : ℚ) (l : List ModelConfig),
      l.filter (fun a => decide (-(metricValue metric a) = -c)) =
        l.filter (fun a => decide (metricValue metric a = c)) :=
    fun c l => List.filter_congr (fun x _ => decide_eq_decide.mpr neg_inj)
  have hpasc : List.Perm (ranked reg metric .asc) reg :=
    perm_sortByKey (metricValue metric) reg
  have hpdesc : List.Perm (ranked reg metric .desc) reg :=
    perm_sortByKey (fun m => -(metricValue metric m)) reg
  have hsasc : (ranked reg metric .asc).Pairwise
      (fun a b => metricValue metric a ≤ metricValue metric b) :=
    sorted_sortByKey (metricValue metric) reg
  have hsdesc : (ranked reg metric .desc).Pairwise
      (fun a b => metricValue metric b ≤ metricValue metric a) :=
    (sorted_sortByKey (fun m => -(metricValue metric m)) reg).imp
      (fun h => neg_le_neg_iff.mp h)
  refine ⟨hpasc, hsasc, ?_, hpdesc, hsdesc, ?_, ?_⟩
  · intro c
    exact filter_sortByKey (metricValue metric) c reg
  · intro c
    calc (ranked reg metric .desc).filter
          (fun m => decide (metricValue metric m = c))
        = (ranked reg metric .desc).filter
            (fun a => decide (-(metricValue metric a) = -c)) :=
          (hcongr c _).symm
      _ = reg.filter (fun a => decide (-(metricValue metric a) = -c)) :=
          filter_sortByKey (fun m => -(metricValue metric m)) (-c) reg
      _ = reg.filter (fun m => decide (metricValue metric m = c)) := hcongr c reg
  · intro hnd
    apply eq_of_perm_of_sorted_nodupKeys (fun m => -(metricValue metric m))
    · exact ((ranked reg metric .asc).reverse_perm.trans hpasc).trans
        hpdesc.symm
    · rw [List.pairwise_reverse]
      exact hsasc.imp (fun h => neg_le_neg h)
    · exact sorted_sortByKey (fun m => -(metricValue metric m)) reg
    · have h1 : ((ranked reg metric .asc).reverse.map
          (metricValue metric)).Nodup :=
        (((ranked reg metric .asc).reverse_perm.trans hpasc).map
          (metricValue metric)).nodup_iff.mpr hnd
      have h2 : (ranked reg metric .asc).reverse.map
          (fun m => -(metricValue metric m)) =
        ((ranked reg metric .asc).reverse.map (metricValue metric)).map
          Neg.neg := by
        rw [List.map_map]
        rfl
      rw [h2]
      exact h1.map neg_injective

/-- Witness for C10 at a three-entry registry with pairwise-distinct combined
prices (`0.42`, `8`, `1.37`): the reversed ascending price ranking equals the
descending one. -/
theorem ranked_spec_witness :
    (ranked [ds_dsv3, ds_dsr1, ds_dsv3o] .price .asc).reverse =
      ranked [ds_dsv3, ds_dsr1, ds_dsv3o] .price .desc := by
  refine (ranked_spec [ds_dsv3, ds_dsr1, ds_dsv3o] .price).2.2.2.2.2.2 ?_
  norm_num [metricValue, List.nodup_cons, ds_dsv3, ds_dsr1, ds_dsv3o]

-- ==========================================================================
-- C5: insights
-- ==========================================================================

/-- C5 counterexample: over the DeepSeek registry, `deepseekT` and
`deepseekT+` tie at the maximal context window `163840`; `insights` returns
`deepseekT+` as `context.largest`, yet the FIRST entry attaining the maximum
is `deepseekT`, so the maximum extremes do not break ties by first
occurrence. -/
theorem insights_firstOccurrence_cex :
    (insights DEEPSEEK_MODELS).context.largest = some ds_deepseekTPlus ∧
    (∀ m ∈ DEEPSEEK_MODELS,
      m.contextWindow ≤ ds_deepseekT.contextWindow) ∧
    DEEPSEEK_MODELS.find?
      (fun m => decide (ds_deepseekT.contextWindow ≤ m.contextWindow)) =
        some ds_deepseekT ∧
    ds_deepseekT ≠ ds_deepseekTPlus := by
  refine ⟨?_, ?_, ?_, ?_⟩
  · norm_num [insights, sortByKey, List.insertionSort, List.orderedInsert,
      keyLe, List.getLast?, DEEPSEEK_MODELS, ds_deepseek, ds_deepseekT,
      ds_deepseekTPlus, ds_dsv3, ds_dsr1, ds_dsv3o, ds_dsr1o]
  · norm_num [DEEPSEEK_MODELS, List.forall_mem_cons, ds_deepseek,
      ds_deepseekT, ds_deepseekTPlus, ds_dsv3, ds_dsr1, ds_dsv3o, ds_dsr1o]
  · norm_num [List.find?, DEEPSEEK_MODELS, ds_deepseek, ds_deepseekT,
      ds_deepseekTPlus, ds_dsv3, ds_dsr1, ds_dsv3o, ds_dsr1o]
  · simp [ds_deepseekT, ds_deepseekTPlus]

/-- C5 (amended): `insights()` counts every enumerated provider (zero when no
entry has it); the minimum extremes (`pricing.cheapest`,
`context.smallest`) break ties by FIRST occurrence in registry order, while
the maximum extremes (`pricing.mostExpensive`, `context.largest`) break ties
by LAST occurrence; on a non-empty registry all four extremes are present. -/
theorem insights_spec (reg : Registry) :
    (insights reg).totalModels = reg.length ∧
    (∀ p, (insights reg).providers p =
      (reg.filter (fun m => decide (m.provider = p))).length) ∧
    (∀ p, (∀ m ∈ reg, m.provider ≠ p) → (insights reg).providers p = 0) ∧
    (∀ m, (insights reg).pricing.cheapestEntry = some m →
      m ∈ reg ∧ (∀ x ∈ reg, combined m ≤ combined x) ∧
      reg.find? (fun x => decide (combined x = combined m)) = some m) ∧
    (∀ m, (insights reg).pricing.mostExpensive = some m →
      m ∈ reg ∧ (∀ x ∈ reg, combined x ≤ combined m) ∧
      reg.reverse.find? (fun x => decide (combined x = combined m)) =
        some m) ∧
    (∀ m, (insights reg).context.smallest = some m →
      m ∈ reg ∧ (∀ x ∈ reg, m.contextWindow ≤ x.contextWindow) ∧
      reg.find? (fun x => decide (x.contextWindow = m.contextWindow)) =
        some m) ∧
    (∀ m, (insights reg).context.largest = some m →
      m ∈ reg ∧ (∀ x ∈ reg, x.contextWindow ≤ m.contextWindow) ∧
      reg.reverse.find?
        (fun x => decide (x.contextWindow = m.contextWindow)) = some m) ∧
    (reg ≠ [] → (insights reg).pricing.cheapestEntry.isSome ∧
      (insights reg).pricing.mostExpensive.isSome ∧
      (insights reg).context.smallest.isSome ∧
      (insights reg).context.largest.isSome) := by
  refine ⟨rfl, fun p => rfl, ?_, ?_, ?_, ?_, ?_, ?_⟩
  · intro p hnone
    show (reg.filter (fun m => decide (m.provider = p))).length = 0
    rw [List.length_eq_zero]
    rw [List.filter_eq_nil_iff]
    intro m hm
    simpa using hnone m hm
  · intro m hm
    simp only [insights] at hm
    exact head?_sortByKey_spec combined reg m hm
  · intro m hm
    simp only [insights] at hm
    exact getLast?_sortByKey_spec combined reg m hm
  · intro m hm
    simp only [insights] at hm
    exact head?_sortByKey_spec (fun x => x.contextWindow) reg m hm
  · intro m hm
    simp only [insights] at hm
    exact getLast?_sortByKey_spec (fun x => x.contextWindow) reg m hm
  · intro hne
    have hs : ∀ key : ModelConfig → ℚ, sortByKey key reg ≠ [] := by
      intro key h
      exact hne ((sortByKey_nil_iff key reg).mp h)
    simp only [insights]
    refine ⟨?_, ?_, ?_, ?_⟩
    · rw [← Option.ne_none_iff_isSome, Ne, List.head?_eq_none_iff]
      exact hs combined
    · rw [← Option.ne_none_iff_isSome, Ne, List.getLast?_eq_none_iff]
      exact hs combined
    · rw [← Option.ne_none_iff_isSome, Ne, List.head?_eq_none_iff]
      exact hs _
    · rw [← Option.ne_none_iff_isSome, Ne, List.getLast?_eq_none_iff]
      exact hs _

/-- Witness for the amended C5 at the DeepSeek registry: the cheapest entry
is `dsv3` (unique minimal combined price `0.42`), the first occurrence of
that price. -/
theorem insights_spec_witness :
    ds_dsv3 ∈ DEEPSEEK_MODELS ∧
    DEEPSEEK_MODELS.find?
      (fun x => decide (combined x = combined ds_dsv3)) = some ds_dsv3 := by
  have h := (insights_spec DEEPSEEK_MODELS).2.2.2.1 ds_dsv3
    (by
      norm_num [insights, sortByKey, List.insertionSort, List.orderedInsert,
        keyLe, combined, DEEPSEEK_MODELS, ds_deepseek, ds_deepseekT,
        ds_deepseekTPlus, ds_dsv3, ds_dsr1, ds_dsv3o, ds_dsr1o])
  exact ⟨h.1, h.2.2⟩

-- ==========================================================================
-- C6: supporting
-- ==========================================================================

/-- C6 counterexample: `supporting('cacheDiscountFactor')` over the DashScope
registry returns all three entries even though each carries the default
`cacheDiscountFactor = 1.0`; under the claim's "not the default value"
reading none of them would qualify. -/
theorem supporting_default_cex :
    supporting DASHSCOPE_MODELS CapField.cacheDiscountFactor =
      DASHSCOPE_MODELS ∧
    DASHSCOPE_MODELS.filter
      (supportingSpecFilter CapField.cacheDiscountFactor) = [] ∧
    qwen3max ∈ DASHSCOPE_MODELS ∧
    qwen3max.capabilities.cacheDiscountFactor =
      DEFAULT_MODEL_CAPABILITIES.cacheDiscountFactor := by
  refine ⟨?_, ?_, ?_, ?_⟩
  · simp [supporting, getCap, DASHSCOPE_MODELS]
  · norm_num [supportingSpecFilter, getCap, List.filter_cons,
      DASHSCOPE_MODELS, qwen3max, qwenplus, qwenturbo,
      DASHSCOPE_DEFAULT_CAPABILITIES, DEFAULT_MODEL_CAPABILITIES]
  · simp [DASHSCOPE_MODELS]
  · norm_num [qwen3max, DASHSCOPE_DEFAULT_CAPABILITIES,
      DEFAULT_MODEL_CAPABILITIES]

/-- C6 (amended): `supporting(field)` returns exactly the registry entries
whose boolean flag is true when the field is boolean; for the two non-boolean
fields it tests presence (`!== undefined`), and since every capability record
is total it returns every registry entry, not only those differing from the
default. -/
theorem supporting_spec (reg : Registry) (capability : CapField) :
    supporting reg capability =
      (if isBoolField capability
       then reg.filter (fun m => boolFlag m capability)
       else reg) := by
  cases capability <;>
    simp [supporting, isBoolField, boolFlag, getCap]

end LlmZoo
